import Mathlib

/-!
Shallow embedding of the daily work-time and pause computation engine of the
worktime-tracker repository (frontend/public/utils.js), together with proofs
about the claims of its specification.

Conventions of the embedding:
* JavaScript numbers holding whole seconds are modelled as `Int`, with the
  source's `Math.max` / `Math.min` rendered as `max` / `min` on `Int`.
* A booking's `timestamp_iso` string is modelled as the local-epoch second
  count it denotes (an ISO string without zone suffix is parsed by `new Date`
  in local time); `dt.getHours()*3600 + dt.getMinutes()*60 + dt.getSeconds()`
  is then the timestamp modulo 86400.
* A booking's fallback `time` field ("HH:MM", already validated as in the
  claims, which quantify only over well-formed or absent time strings) is
  modelled as the parsed pair of numbers; an absent field is `none`.
* `Array.prototype.sort` with comparator `timeA - timeB` is a stable sort by
  the comparator key; it is modelled by `List.insertionSort`, which is stable.
  The in-place mutation of the caller's array is modelled explicitly by
  `bookingsAfterCall`.
-/

namespace Worktime

/-- The `action` field of a booking: the strings `'in'`, `'out'`, or any
other value (the source compares with `===` against these two strings). -/
inductive Action where
  | act_in
  | act_out
  | other
deriving DecidableEq

/-- One clock booking as consumed by `calculateDailyStatsJS`:
`timestamp_iso` is the local-epoch second count denoted by the ISO string
(`none` when the field is absent), `time` is the parsed "HH:MM" fallback
(`none` when absent). -/
structure Booking where
  action : Action
  timestamp_iso : Option Int
  time : Option (Nat × Nat)
deriving DecidableEq

instance : Inhabited Booking := ⟨⟨Action.other, none, none⟩⟩

/-- The `options` object passed to `calculateDailyStatsJS` by its callers
(app.js, ui-components.js).  The source function only ever reads
`options.paola`; the other fields are supplied by callers but never read. -/
structure Options where
  paola : Bool
  short_break_logic : Bool
  work_start_time_str : Option (Nat × Nat)
  work_end_time_str : Option (Nat × Nat)

/-- The result object returned by `calculateDailyStatsJS`. -/
structure DailyStats where
  worked : String
  pause : String
  overtime : String
  netSeconds : Int
  pauseSeconds : Int
  overtimeSeconds : Int
deriving DecidableEq

/-- Two-digit zero padding, as `toString(n).padStart(2, '0')` for `n ≥ 0`. -/
def padStart2 (n : Nat) : String :=
  if n < 10 then "0" ++ toString n else toString n

/-- utils.js `secondsToTimeStr`: signed rendering `HH:MM` with a leading
ASCII `-` for negative inputs. -/
def secondsToTimeStr (seconds : Int) : String :=
  let isNegative := seconds < 0
  let absSeconds := seconds.natAbs
  let hours := absSeconds / 3600
  let minutes := (absSeconds % 3600) / 60
  let timeStr := padStart2 hours ++ ":" ++ padStart2 minutes
  if isNegative then "-" ++ timeStr else timeStr

/-- The sort key used by the comparator in `calculateDailyStatsJS`:
`a.timestamp_iso ? new Date(a.timestamp_iso) : new Date('1970-01-01T' +
(a.time || '00:00') + ':00')`, as a local-epoch second count (the comparator
subtracts the two dates, so only this key's order matters). -/
def sortKey (b : Booking) : Int :=
  match b.timestamp_iso with
  | some t => t
  | none =>
    match b.time with
    | some hm => (hm.1 : Int) * 3600 + (hm.2 : Int) * 60
    | none => 0

/-- The comparator's order relation on bookings. -/
def keyLe (a b : Booking) : Prop := sortKey a ≤ sortKey b

instance : DecidableRel keyLe := fun a b => inferInstanceAs (Decidable (sortKey a ≤ sortKey b))

instance : IsTotal Booking keyLe := ⟨fun a b => le_total (sortKey a) (sortKey b)⟩

instance : IsTrans Booking keyLe := ⟨fun _ _ _ h h' => le_trans h h'⟩

/-- The sorted bookings list (`bookings.sort(...)` in the source: a stable
sort by `sortKey`). -/
def sortedBookings (bookings : List Booking) : List Booking :=
  List.insertionSort keyLe bookings

/-- utils.js `getSecondsOfDay`: seconds since local midnight, preferring the
absolute timestamp, falling back to the "HH:MM" string, and to "00:00" when
both are absent. -/
def getSecondsOfDay (booking : Booking) : Int :=
  match booking.timestamp_iso with
  | some t => t % 86400
  | none =>
    match booking.time with
    | some hm => (hm.1 : Int) * 3600 + (hm.2 : Int) * 60
    | none => 0

/-- The hardcoded start-of-day cutoff of utils.js: 6:30. -/
def cutoff_start_seconds : Int := 6 * 3600 + 30 * 60

/-- The hardcoded end-of-day cutoff of utils.js: 18:30. -/
def cutoff_end_seconds : Int := 18 * 3600 + 30 * 60

/-- `Math.max(firstStampSeconds, cutoff_start_seconds)` where the first stamp
is the head of the sorted bookings. -/
def effective_first_stamp_seconds (sb : List Booking) : Int :=
  max (getSecondsOfDay sb.headI) cutoff_start_seconds

/-- `Math.min(lastStampSeconds, cutoff_end_seconds)` where the last stamp is
the last element of the sorted bookings. -/
def effective_last_stamp_seconds (sb : List Booking) : Int :=
  min (getSecondsOfDay (sb.getLastD default)) cutoff_end_seconds

/-- `Math.max(0, effective_last_stamp_seconds - effective_first_stamp_seconds)`. -/
def gross_session_seconds (sb : List Booking) : Int :=
  max 0 (effective_last_stamp_seconds sb - effective_first_stamp_seconds sb)

/-- The list of adjacent pairs `(sortedBookings[i], sortedBookings[i+1])`
scanned by the manual-pause loop. -/
def adjPairs (l : List Booking) : List (Booking × Booking) :=
  l.zip l.tail

/-- The contribution of a single adjacent pair to the manual pause: nonzero
only for an `'out'` immediately followed by an `'in'`, with the gap clipped
to `[effective_first, effective_last]` and only positive gaps counted. -/
def pausePairSeconds (ef el : Int) (x y : Booking) : Int :=
  if x.action = Action.act_out ∧ y.action = Action.act_in then
    let pause_start := getSecondsOfDay x
    let pause_end := getSecondsOfDay y
    let effective_pause_start := max pause_start ef
    let effective_pause_end := min pause_end el
    if effective_pause_start < effective_pause_end then
      effective_pause_end - effective_pause_start
    else 0
  else 0

/-- The manual-pause accumulation loop of utils.js (lines 100-113). -/
def manual_pause_seconds (sb : List Booking) : Int :=
  ((adjPairs sb).map fun p =>
    pausePairSeconds (effective_first_stamp_seconds sb)
      (effective_last_stamp_seconds sb) p.1 p.2).sum

/-- The statutory break tiers of utils.js (lines 116-132), evaluated on the
gross session seconds. -/
def statutory_break_seconds (g : Int) : Int :=
  if g ≤ 21600 then 0
  else if g ≤ 23400 then g - 21600
  else if g ≤ 32400 then 1800
  else if g ≤ 33300 then 1800 + (g - 32400)
  else 2700

/-- The pause floor merge of utils.js (lines 134-140): the maximum of manual
and statutory pause, further raised to at least 50 minutes when
`options.paola` is set and the manual pause is zero. -/
def deductedOf (g m : Int) (paola : Bool) : Int :=
  let total := max m (statutory_break_seconds g)
  if paola && (m == 0) then max total (50 * 60) else total

/-- The net-work computation of utils.js (lines 142-146): gross minus the
deducted pause, floored at 0 and capped at 10 hours. -/
def cappedNetOf (g m : Int) (paola : Bool) : Int :=
  min (max 0 (g - deductedOf g m paola)) (10 * 3600)

/-- utils.js `calculateDailyStatsJS` (lines 66-158): empty input short-circuits
to an all-zero result; otherwise the pipeline sorts, clamps the first and last
stamps to the hardcoded 6:30/18:30 cutoffs, accumulates the manual pause,
merges it with the statutory tier (and the paola floor), and caps net work. -/
def calculateDailyStatsJS (bookings : List Booking) (targetSeconds : Int)
    (options : Options) : DailyStats :=
  match bookings with
  | [] => ⟨"00:00", "00:00", "00:00", 0, 0, 0⟩
  | _ :: _ =>
    let sb := sortedBookings bookings
    let g := gross_session_seconds sb
    let m := manual_pause_seconds sb
    let total_deducted_pause_seconds := deductedOf g m options.paola
    let capped_net_worked_seconds := cappedNetOf g m options.paola
    let overtime_seconds := capped_net_worked_seconds - targetSeconds
    ⟨secondsToTimeStr capped_net_worked_seconds,
      secondsToTimeStr total_deducted_pause_seconds,
      secondsToTimeStr overtime_seconds,
      capped_net_worked_seconds,
      total_deducted_pause_seconds,
      overtime_seconds⟩

/-- The state of the caller's bookings array after `calculateDailyStatsJS`
returns: the source calls `bookings.sort(...)`, which sorts the caller's
array in place (after the empty-array early return). -/
def bookingsAfterCall (bookings : List Booking) : List Booking :=
  match bookings with
  | [] => []
  | _ :: _ => sortedBookings bookings

/-- A clock-in booking carrying an absolute timestamp at local-epoch second `s`. -/
def bIn (s : Int) : Booking := ⟨Action.act_in, some s, none⟩

/-- A clock-out booking carrying an absolute timestamp at local-epoch second `s`. -/
def bOut (s : Int) : Booking := ⟨Action.act_out, some s, none⟩

/-- Options with all flags off, as callers pass them when no feature is active. -/
def oStd : Options := ⟨false, false, none, none⟩

/-- Options with the paola (supplemental 50-minute pause) flag enabled. -/
def oPao : Options := ⟨true, false, none, none⟩

/-! Basic arithmetic facts about the pipeline's pieces. -/

theorem statutory_break_nonneg (g : Int) : 0 ≤ statutory_break_seconds g := by
  unfold statutory_break_seconds
  split_ifs <;> omega

theorem statutory_break_mono {g g' : Int} (h : g ≤ g') :
    statutory_break_seconds g ≤ statutory_break_seconds g' := by
  unfold statutory_break_seconds
  split_ifs <;> omega

theorem sub_statutory_break_mono {g g' : Int} (h : g ≤ g') :
    g - statutory_break_seconds g ≤ g' - statutory_break_seconds g' := by
  unfold statutory_break_seconds
  split_ifs <;> omega

theorem pausePairSeconds_nonneg (ef el : Int) (x y : Booking) :
    0 ≤ pausePairSeconds ef el x y := by
  simp only [pausePairSeconds]
  split_ifs <;> omega

theorem manual_pause_nonneg (sb : List Booking) : 0 ≤ manual_pause_seconds sb := by
  unfold manual_pause_seconds
  refine List.sum_nonneg ?_
  intro x hx
  simp only [List.mem_map] at hx
  obtain ⟨p, -, rfl⟩ := hx
  exact pausePairSeconds_nonneg _ _ _ _

theorem deductedOf_nonneg (g m : Int) (p : Bool) (hm : 0 ≤ m) :
    0 ≤ deductedOf g m p := by
  have := statutory_break_nonneg g
  simp only [deductedOf]
  split_ifs <;> omega

theorem cappedNetOf_nonneg (g m : Int) (p : Bool) : 0 ≤ cappedNetOf g m p := by
  simp only [cappedNetOf]
  omega

theorem cappedNetOf_le_cap (g m : Int) (p : Bool) : cappedNetOf g m p ≤ 36000 := by
  simp only [cappedNetOf]
  omega

theorem cappedNetOf_mono {g g' : Int} (m : Int) (p : Bool) (h : g ≤ g') :
    cappedNetOf g m p ≤ cappedNetOf g' m p := by
  have h1 := sub_statutory_break_mono h
  simp only [cappedNetOf, deductedOf]
  split_ifs <;> omega

/-- Unfolding equation of `calculateDailyStatsJS` on a non-empty bookings list. -/
theorem calculateDailyStatsJS_cons (b : Booking) (rest : List Booking) (t : Int)
    (o : Options) :
    calculateDailyStatsJS (b :: rest) t o =
      (let sb := sortedBookings (b :: rest)
       let g := gross_session_seconds sb
       let m := manual_pause_seconds sb
       ⟨secondsToTimeStr (cappedNetOf g m o.paola),
        secondsToTimeStr (deductedOf g m o.paola),
        secondsToTimeStr (cappedNetOf g m o.paola - t),
        cappedNetOf g m o.paola,
        deductedOf g m o.paola,
        cappedNetOf g m o.paola - t⟩) := rfl

/-- The statutory pause tier exactly as the specification words it, with the
two-sided breakpoint conditions at 6h, 6h30m, 9h and 9h15m spelled out. -/
def specStatutoryTier (g : Int) : Int :=
  if g ≤ 6 * 3600 then 0
  else if 6 * 3600 < g ∧ g ≤ 6 * 3600 + 1800 then g - 6 * 3600
  else if 6 * 3600 + 1800 < g ∧ g ≤ 9 * 3600 then 1800
  else if 9 * 3600 < g ∧ g ≤ 9 * 3600 + 900 then 1800 + (g - 9 * 3600)
  else 2700

theorem statutory_eq_specTier (g : Int) :
    statutory_break_seconds g = specStatutoryTier g := by
  unfold statutory_break_seconds specStatutoryTier
  split_ifs <;> omega

/-- Claim C1: for every events list and configuration, the statutory pause is
computed from the gross (clamped) seconds by the exact piecewise tier function
of the spec (0 up to 6h, linear ramp to 30min up to 6h30m, flat 30min up to
9h, linear ramp to 45min up to 9h15m, flat 45min beyond), it enters the
result through the pause merge applied to gross seconds, and a pair spanning
exactly 9h10m yields a statutory pause of 40 minutes. -/
theorem claim1_statutory_tier :
    (∀ g : Int, statutory_break_seconds g = specStatutoryTier g) ∧
    (∀ (b : Booking) (rest : List Booking) (t : Int) (o : Options),
      (calculateDailyStatsJS (b :: rest) t o).pauseSeconds =
        (let sb := sortedBookings (b :: rest)
         let g := gross_session_seconds sb
         let m := manual_pause_seconds sb
         let merged := max m (specStatutoryTier g)
         if o.paola && (m == 0) then max merged 3000 else merged)) ∧
    (calculateDailyStatsJS [bIn (8 * 3600), bOut (17 * 3600 + 600)] 28080 oStd).pauseSeconds
      = 2400 := by
  refine ⟨statutory_eq_specTier, ?_, by decide⟩
  intro b rest t o
  simp only [calculateDailyStatsJS_cons, deductedOf, statutory_eq_specTier]
  norm_num

/-- Claim C2: for every non-empty events list and configuration, the deducted
pause is nonnegative, net seconds lie between 0 and the 10h cap, and overtime
equals net minus target; a 12h gross span with 45min pause reports net work of
exactly 10h. -/
theorem claim2_result_invariants :
    (∀ (b : Booking) (rest : List Booking) (t : Int) (o : Options),
      0 ≤ (calculateDailyStatsJS (b :: rest) t o).pauseSeconds ∧
      0 ≤ (calculateDailyStatsJS (b :: rest) t o).netSeconds ∧
      (calculateDailyStatsJS (b :: rest) t o).netSeconds ≤ 36000 ∧
      (calculateDailyStatsJS (b :: rest) t o).overtimeSeconds =
        (calculateDailyStatsJS (b :: rest) t o).netSeconds - t) ∧
    ((calculateDailyStatsJS [bIn (6 * 3600 + 1800), bOut (18 * 3600 + 1800)] 28080
        oStd).pauseSeconds = 2700 ∧
     (calculateDailyStatsJS [bIn (6 * 3600 + 1800), bOut (18 * 3600 + 1800)] 28080
        oStd).netSeconds = 36000) := by
  refine ⟨?_, by decide, by decide⟩
  intro b rest t o
  simp only [calculateDailyStatsJS_cons]
  refine ⟨?_, cappedNetOf_nonneg _ _ _, cappedNetOf_le_cap _ _ _, trivial⟩
  exact deductedOf_nonneg _ _ _ (manual_pause_nonneg _)

/-- Claim C3 counterexample: with an empty events list and target 28080s the
code returns `overtimeSeconds = 0`, not `-28080` as the claim states. -/
theorem claim3_counterexample :
    (calculateDailyStatsJS [] 28080 oStd).overtimeSeconds = 0 ∧
    (calculateDailyStatsJS [] 28080 oStd).overtimeSeconds ≠ -28080 := by
  decide

/-- Claim C3 amended: for every target and configuration, an empty events list
returns the all-zero result: worked, pause and overtime are all 0 (rendered
"00:00"), so `overtimeSeconds = 0` rather than `-targetSeconds`. -/
theorem claim3_empty_all_zero (t : Int) (o : Options) :
    calculateDailyStatsJS [] t o = ⟨"00:00", "00:00", "00:00", 0, 0, 0⟩ := rfl

/-- The work-start cutoff as claim C4 states it: taken from the
configuration's `work_start_time_str`, with 06:30 as the default when the
configuration omits it. -/
def specConfigStartCutoff (o : Options) : Int :=
  match o.work_start_time_str with
  | some hm => (hm.1 : Int) * 3600 + (hm.2 : Int) * 60
  | none => 6 * 3600 + 30 * 60

/-- The work-end cutoff as claim C4 states it: taken from the configuration's
`work_end_time_str`, with 18:30 as the default when the configuration omits it. -/
def specConfigEndCutoff (o : Options) : Int :=
  match o.work_end_time_str with
  | some hm => (hm.1 : Int) * 3600 + (hm.2 : Int) * 60
  | none => 18 * 3600 + 30 * 60

/-- The gross-seconds formula as claim C4 states it, with the cutoffs taken
from the configuration instead of the hardcoded constants. -/
def specGrossSeconds (bookings : List Booking) (o : Options) : Int :=
  let sb := sortedBookings bookings
  max 0 (min (getSecondsOfDay (sb.getLastD default)) (specConfigEndCutoff o) -
    max (getSecondsOfDay sb.headI) (specConfigStartCutoff o))

/-- Configuration carrying a work-start cutoff of 08:00, as a caller supplies
via `work_start_time_str` (used to refute claim C4). -/
def o0800 : Options := ⟨false, false, some (8, 0), none⟩

/-- Claim C4 counterexample: with a configured 08:00 start cutoff and events
IN 07:00, OUT 12:00, the claim's formula gives 4h of gross time (activity
before 08:00 excluded) but the code computes 5h of gross time — and indeed
reports 5h of net work — because it always uses the hardcoded 06:30/18:30
cutoffs and ignores the cutoffs supplied in the configuration. -/
theorem claim4_counterexample :
    specGrossSeconds [bIn (7 * 3600), bOut (12 * 3600)] o0800 = 14400 ∧
    gross_session_seconds (sortedBookings [bIn (7 * 3600), bOut (12 * 3600)]) = 18000 ∧
    (calculateDailyStatsJS [bIn (7 * 3600), bOut (12 * 3600)] 0 o0800).netSeconds = 18000 ∧
    (14400 : Int) ≠ 18000 := by
  decide

/-- Claim C4 amended: the gross interval is always computed against the fixed
cutoffs 06:30 (23400s) and 18:30 (66600s); the cutoff times supplied in the
configuration are ignored — the whole result depends on the configuration
only through the paola flag. -/
theorem claim4_cutoffs_hardcoded :
    (∀ sb : List Booking,
      gross_session_seconds sb =
        max 0 (min (getSecondsOfDay (sb.getLastD default)) 66600 -
          max (getSecondsOfDay sb.headI) 23400)) ∧
    (∀ (bookings : List Booking) (t : Int) (o : Options),
      calculateDailyStatsJS bookings t o =
        calculateDailyStatsJS bookings t ⟨o.paola, false, none, none⟩) := by
  constructor
  · intro sb
    rfl
  · intro bookings t o
    cases bookings <;> rfl

/-- Claim C5: the deducted pause is the maximum of the manual and the
statutory pause; when the paola flag is set and the manual pause is zero the
floor is further raised to 50 minutes (3000s), and when the manual pause is
nonzero (or the flag is off) the supplemental floor is never applied. -/
theorem claim5_pause_floor_merge (b : Booking) (rest : List Booking) (t : Int)
    (o : Options) :
    (o.paola = true → manual_pause_seconds (sortedBookings (b :: rest)) = 0 →
      (calculateDailyStatsJS (b :: rest) t o).pauseSeconds =
        max (max (manual_pause_seconds (sortedBookings (b :: rest)))
          (statutory_break_seconds (gross_session_seconds (sortedBookings (b :: rest)))))
          3000) ∧
    (o.paola = false ∨ manual_pause_seconds (sortedBookings (b :: rest)) ≠ 0 →
      (calculateDailyStatsJS (b :: rest) t o).pauseSeconds =
        max (manual_pause_seconds (sortedBookings (b :: rest)))
          (statutory_break_seconds (gross_session_seconds (sortedBookings (b :: rest))))) := by
  constructor
  · intro hp hm
    simp only [calculateDailyStatsJS_cons, deductedOf, hp, hm]
    norm_num
  · intro h
    rcases h with hp | hm
    · simp only [calculateDailyStatsJS_cons, deductedOf, hp]
      norm_num
    · simp only [calculateDailyStatsJS_cons, deductedOf]
      rw [if_neg]
      simp only [Bool.and_eq_true, beq_iff_eq]
      exact fun hc => hm hc.2

/-- Witness for claim C5 at a concrete input: a single IN/OUT pair with no
manual pause and the paola flag set reports a deducted pause of 3000s. -/
theorem claim5_pause_floor_merge_witness :
    (calculateDailyStatsJS [bIn (10 * 3600), bOut (10 * 3600 + 1800)] 0 oPao).pauseSeconds
      = 3000 := by
  have h := (claim5_pause_floor_merge (bIn (10 * 3600)) [bOut (10 * 3600 + 1800)]
    0 oPao).1 rfl (by decide)
  exact h.trans (by decide)

/-- Claim C6 counterexample: a one-element events list (a single IN at 08:00)
with the paola flag enabled reports `pauseSeconds = 3000`, not 0 as the claim
states for every configuration. -/
theorem claim6_counterexample :
    (calculateDailyStatsJS [bIn (8 * 3600)] 0 oPao).pauseSeconds = 3000 ∧
    (3000 : Int) ≠ 0 := by
  decide

/-- Claim C6 amended: for every one-element events list and every
configuration the gross interval and the net worked seconds are zero, and the
pause is zero whenever the paola flag is off (with the flag on, the
supplemental floor makes the reported pause 3000s). -/
theorem claim6_single_event (b : Booking) (t : Int) (o : Options) :
    gross_session_seconds (sortedBookings [b]) = 0 ∧
    (calculateDailyStatsJS [b] t o).netSeconds = 0 ∧
    (o.paola = false → (calculateDailyStatsJS [b] t o).pauseSeconds = 0) ∧
    (o.paola = true → (calculateDailyStatsJS [b] t o).pauseSeconds = 3000) := by
  have hsb : sortedBookings [b] = [b] := rfl
  have hg : gross_session_seconds (sortedBookings [b]) = 0 := by
    rw [hsb]
    have hL : ([b] : List Booking).getLastD default = b := rfl
    simp only [gross_session_seconds, effective_first_stamp_seconds,
      effective_last_stamp_seconds, cutoff_start_seconds, cutoff_end_seconds,
      List.headI, hL]
    omega
  have hm : manual_pause_seconds (sortedBookings [b]) = 0 := rfl
  refine ⟨hg, ?_, ?_, ?_⟩
  · simp only [calculateDailyStatsJS_cons, hg, hm, cappedNetOf, deductedOf]
    cases o.paola <;> simp
  · intro hp
    simp only [calculateDailyStatsJS_cons, hg, hm, deductedOf, hp]
    simp [statutory_break_seconds]
  · intro hp
    simp only [calculateDailyStatsJS_cons, hg, hm, deductedOf, hp]
    simp [statutory_break_seconds]

/-- Witness for claim C6 at a concrete input: a single IN at 08:00 with all
flags off yields zero net work and zero pause. -/
theorem claim6_single_event_witness :
    (calculateDailyStatsJS [bIn (8 * 3600)] 28080 oStd).netSeconds = 0 ∧
    (calculateDailyStatsJS [bIn (8 * 3600)] 28080 oStd).pauseSeconds = 0 := by
  obtain ⟨-, h2, h3, -⟩ := claim6_single_event (bIn (8 * 3600)) 28080 oStd
  exact ⟨h2, h3 rfl⟩

/-- Claim C8 counterexample: supplying the bookings in the order
OUT 12:00, IN 08:00, the caller's array after the call is the sorted array,
not the array in the order supplied. -/
theorem claim8_counterexample :
    bookingsAfterCall [bOut (12 * 3600), bIn (8 * 3600)] ≠
      [bOut (12 * 3600), bIn (8 * 3600)] := by
  decide

/-- Claim C8 amended: `calculateDailyStatsJS` sorts the caller's bookings
array in place, so after the call the array holds the same elements as
supplied (a permutation) but in ascending order of the time key; the
configuration object is only read, never written (in the embedding it is a
value the function merely projects from). -/
theorem claim8_sort_in_place (bookings : List Booking) :
    (bookingsAfterCall bookings).Perm bookings ∧
    List.Sorted keyLe (bookingsAfterCall bookings) := by
  cases bookings with
  | nil => exact ⟨List.Perm.refl _, List.sorted_nil⟩
  | cons b rest =>
    exact ⟨List.perm_insertionSort keyLe _, List.sorted_insertionSort keyLe _⟩

/-- No adjacent OUT-immediately-followed-by-IN pair occurs in the list. -/
def noOutInPair (l : List Booking) : Prop :=
  ∀ p ∈ adjPairs l, ¬(p.1.action = Action.act_out ∧ p.2.action = Action.act_in)

instance (l : List Booking) : Decidable (noOutInPair l) :=
  inferInstanceAs (Decidable (∀ p ∈ adjPairs l,
    ¬(p.1.action = Action.act_out ∧ p.2.action = Action.act_in)))

theorem manual_pause_eq_zero_of_noOutInPair (sb : List Booking)
    (h : noOutInPair sb) : manual_pause_seconds sb = 0 := by
  unfold manual_pause_seconds
  refine List.sum_eq_zero ?_
  intro x hx
  simp only [List.mem_map] at hx
  obtain ⟨p, hp, rfl⟩ := hx
  simp only [pausePairSeconds, if_neg (h p hp)]

/-- Claim C9 counterexample: the claim's "whenever" clause fails for the
empty events list, which contains no OUT-then-IN pair, yet with the paola
flag set the early return reports `pauseSeconds = 0`, not at least 3000. -/
theorem claim9_counterexample :
    adjPairs (sortedBookings ([] : List Booking)) = [] ∧
    (calculateDailyStatsJS [] 0 oPao).pauseSeconds = 0 ∧
    ¬(3000 ≤ (calculateDailyStatsJS [] 0 oPao).pauseSeconds) := by
  refine ⟨rfl, rfl, by decide⟩

/-- Claim C9 amended: for every non-empty events list whose sorted form has
no OUT-immediately-followed-by-IN pair, with the paola flag set the reported
pause is at least 3000s; in particular it can strictly exceed the gross
elapsed time: a single IN/OUT pair 30 minutes apart reports a pause of 3000s
and net seconds clamped to 0 while the gross time is only 1800s. -/
theorem claim9_pause_exceeds_gross (b : Booking) (rest : List Booking)
    (t : Int) (o : Options) (hp : o.paola = true)
    (hnp : noOutInPair (sortedBookings (b :: rest))) :
    3000 ≤ (calculateDailyStatsJS (b :: rest) t o).pauseSeconds ∧
    (calculateDailyStatsJS [bIn (10 * 3600), bOut (10 * 3600 + 1800)] 0
      oPao).pauseSeconds = 3000 ∧
    (calculateDailyStatsJS [bIn (10 * 3600), bOut (10 * 3600 + 1800)] 0
      oPao).netSeconds = 0 ∧
    gross_session_seconds
      (sortedBookings [bIn (10 * 3600), bOut (10 * 3600 + 1800)]) = 1800 := by
  refine ⟨?_, by decide, by decide, by decide⟩
  have hm := manual_pause_eq_zero_of_noOutInPair _ hnp
  simp only [calculateDailyStatsJS_cons, deductedOf, hm, hp]
  norm_num

/-- Witness for claim C9 at a concrete input: a single IN/OUT pair 30 minutes
apart with the paola flag set reports a pause of at least 3000s. -/
theorem claim9_pause_exceeds_gross_witness :
    3000 ≤ (calculateDailyStatsJS [bIn (10 * 3600), bOut (10 * 3600 + 1800)] 0
      oPao).pauseSeconds :=
  (claim9_pause_exceeds_gross (bIn (10 * 3600)) [bOut (10 * 3600 + 1800)] 0 oPao
    rfl (by decide)).1

/-- Claim C10: the calculator is total at its public interface — the string
fields of the result are always the renderings of its numeric fields, a
booking lacking both `timestamp_iso` and `time` is treated as time-of-day
00:00, and as a first stamp such a booking is clamped up to the 06:30 start
cutoff (23400s), as in the concrete run with a data-less IN and an OUT at
12:00 which reports 5h30m of net work. -/
theorem claim10_totality :
    (∀ b : Booking, b.timestamp_iso = none → b.time = none →
      getSecondsOfDay b = 0) ∧
    (∀ (bookings : List Booking) (t : Int) (o : Options),
      (calculateDailyStatsJS bookings t o).worked =
        secondsToTimeStr (calculateDailyStatsJS bookings t o).netSeconds ∧
      (calculateDailyStatsJS bookings t o).pause =
        secondsToTimeStr (calculateDailyStatsJS bookings t o).pauseSeconds ∧
      (calculateDailyStatsJS bookings t o).overtime =
        secondsToTimeStr (calculateDailyStatsJS bookings t o).overtimeSeconds) ∧
    (effective_first_stamp_seconds
        (sortedBookings [⟨Action.act_in, none, none⟩, bOut (12 * 3600)]) = 23400 ∧
     (calculateDailyStatsJS [⟨Action.act_in, none, none⟩, bOut (12 * 3600)] 0
        oStd).netSeconds = 19800) := by
  refine ⟨?_, ?_, by decide, by decide⟩
  · intro b h1 h2
    simp [getSecondsOfDay, h1, h2]
  · intro bookings t o
    cases bookings with
    | nil =>
      have h0 : ("00:00" : String) = secondsToTimeStr 0 := by decide
      exact ⟨h0, h0, h0⟩
    | cons b rest => exact ⟨rfl, rfl, rfl⟩

/-- Witness for claim C10 at a concrete input: the booking with neither a
timestamp nor a time string is read as second 0 of the day. -/
theorem claim10_totality_witness :
    getSecondsOfDay ⟨Action.act_in, none, none⟩ = 0 :=
  claim10_totality.1 ⟨Action.act_in, none, none⟩ rfl rfl

/-! Lemmas about the stable sort and the manual-pause scan, used for the
what-if monotonicity claim. -/

theorem orderedInsert_append_max (a z : Booking) (l : List Booking)
    (h : keyLe a z) :
    List.orderedInsert keyLe a (l ++ [z]) = List.orderedInsert keyLe a l ++ [z] := by
  induction l with
  | nil => simp [List.orderedInsert, h]
  | cons c cs ih =>
    by_cases hac : keyLe a c
    · simp [List.orderedInsert, hac]
    · simp [List.orderedInsert, hac, ih]

theorem sortedBookings_append_max (z : Booking) (l : List Booking)
    (h : ∀ x ∈ l, keyLe x z) :
    sortedBookings (l ++ [z]) = sortedBookings l ++ [z] := by
  induction l with
  | nil => rfl
  | cons a as ih =>
    have ha : keyLe a z := h a (List.mem_cons_self a as)
    have ih' := ih fun x hx => h x (List.mem_cons_of_mem a hx)
    show List.orderedInsert keyLe a (sortedBookings (as ++ [z])) = _
    rw [ih']
    exact orderedInsert_append_max a z _ ha

theorem headI_append (l l' : List Booking) (h : l ≠ []) :
    (l ++ l').headI = l.headI := by
  cases l with
  | nil => exact absurd rfl h
  | cons a as => rfl

theorem getLastD_mem (l : List Booking) (h : l ≠ []) : l.getLastD default ∈ l := by
  rw [List.getLastD_eq_getLast?, List.getLast?_eq_getLast _ h]
  exact List.getLast_mem h

theorem getLastD_cons_cons (a b : Booking) (t : List Booking) :
    (a :: b :: t).getLastD default = (b :: t).getLastD default := by
  simp [List.getLastD_eq_getLast?, List.getLast?_cons_cons]

theorem adjPairs_cons_cons (x y : Booking) (t : List Booking) :
    adjPairs (x :: y :: t) = (x, y) :: adjPairs (y :: t) := rfl

theorem adjPairs_append_last (z : Booking) :
    ∀ l : List Booking, l ≠ [] →
      adjPairs (l ++ [z]) = adjPairs l ++ [(l.getLastD default, z)]
  | [], h => absurd rfl h
  | [a], _ => rfl
  | a :: b :: t, _ => by
    have ih := adjPairs_append_last z (b :: t) (by simp)
    have h1 : (a :: b :: t) ++ [z] = a :: ((b :: t) ++ [z]) := rfl
    rw [h1]
    have h2 : a :: ((b :: t) ++ [z]) = a :: b :: (t ++ [z]) := rfl
    rw [h2, adjPairs_cons_cons]
    have h3 : (b :: (t ++ [z])) = (b :: t) ++ [z] := rfl
    rw [h3, ih, adjPairs_cons_cons, getLastD_cons_cons]
    rfl

theorem key_le_getLastD_of_sorted :
    ∀ l : List Booking, List.Sorted keyLe l → ∀ x ∈ l, keyLe x (l.getLastD default)
  | [], _, x, hx => absurd hx (List.not_mem_nil x)
  | [a], _, x, hx => by
    rw [List.mem_singleton] at hx
    subst hx
    show sortKey x ≤ sortKey x
    exact le_refl _
  | a :: b :: t, hs, x, hx => by
    obtain ⟨hab, hs'⟩ := List.sorted_cons.mp hs
    rw [getLastD_cons_cons]
    rcases List.mem_cons.mp hx with rfl | hx'
    · exact le_trans (hab b (List.mem_cons_self b t))
        (key_le_getLastD_of_sorted (b :: t) hs' b (List.mem_cons_self b t))
    · exact key_le_getLastD_of_sorted (b :: t) hs' x hx'

/-- All bookings of the what-if scenario carry an absolute timestamp of the
same calendar day `d`: day number times 86400 plus a time-of-day second
count (renderWhatIfResult builds its synthetic OUT this way from the day's
date string). -/
def SameDay (d : Int) (b : Booking) : Prop :=
  ∃ u : Int, 0 ≤ u ∧ u < 86400 ∧ b.timestamp_iso = some (86400 * d + u)

theorem getSecondsOfDay_of_sameDay {d : Int} {b : Booking} (h : SameDay d b) :
    getSecondsOfDay b = sortKey b - 86400 * d := by
  obtain ⟨u, h0, h1, ht⟩ := h
  simp only [getSecondsOfDay, sortKey, ht]
  omega

theorem sod_le_of_key_le {d : Int} {x y : Booking} (hx : SameDay d x)
    (hy : SameDay d y) (h : sortKey x ≤ sortKey y) :
    getSecondsOfDay x ≤ getSecondsOfDay y := by
  rw [getSecondsOfDay_of_sameDay hx, getSecondsOfDay_of_sameDay hy]
  omega

theorem manual_pause_append_out (l : List Booking) (z : Booking) (d : Int)
    (hne : l ≠ [])
    (hz : z.action = Action.act_out)
    (hday : ∀ x ∈ l, SameDay d x) (hzd : SameDay d z)
    (hsorted : List.Sorted keyLe l)
    (hle : ∀ x ∈ l, keyLe x z) :
    manual_pause_seconds (l ++ [z]) = manual_pause_seconds l := by
  have hef : effective_first_stamp_seconds (l ++ [z]) =
      effective_first_stamp_seconds l := by
    unfold effective_first_stamp_seconds
    rw [headI_append l [z] hne]
  have hlast := getLastD_mem l hne
  have hLz : getSecondsOfDay (l.getLastD default) ≤ getSecondsOfDay z :=
    sod_le_of_key_le (hday _ hlast) hzd (hle _ hlast)
  have hel_new : effective_last_stamp_seconds (l ++ [z]) =
      min (getSecondsOfDay z) cutoff_end_seconds := by
    unfold effective_last_stamp_seconds
    rw [List.getLastD_concat]
  unfold manual_pause_seconds
  rw [adjPairs_append_last z l hne]
  simp only [List.map_append, List.sum_append, hef, hel_new, List.map_cons,
    List.map_nil, List.sum_cons, List.sum_nil]
  have hzero : pausePairSeconds (effective_first_stamp_seconds l)
      (min (getSecondsOfDay z) cutoff_end_seconds) (l.getLastD default) z = 0 := by
    simp [pausePairSeconds, hz]
  rw [hzero]
  simp only [add_zero]
  refine congrArg _ (List.map_congr_left ?_)
  intro p hp
  obtain ⟨x, y⟩ := p
  have hy2 : y ∈ l := List.mem_of_mem_tail (List.of_mem_zip hp).2
  have hysod : getSecondsOfDay y ≤ getSecondsOfDay (l.getLastD default) :=
    sod_le_of_key_le (hday _ hy2) (hday _ hlast)
      (key_le_getLastD_of_sorted l hsorted y hy2)
  have hyz : getSecondsOfDay y ≤ getSecondsOfDay z := le_trans hysod hLz
  have hpe : min (getSecondsOfDay y) (min (getSecondsOfDay z) cutoff_end_seconds) =
      min (getSecondsOfDay y)
        (min (getSecondsOfDay (l.getLastD default)) cutoff_end_seconds) := by
    omega
  simp only [pausePairSeconds, effective_last_stamp_seconds, hpe]

/-- Claim C7: what-if monotonicity. For a non-empty events list whose
bookings all carry absolute timestamps of the same day, appending one
synthetic OUT whose time is no earlier than every event never decreases the
computed net worked seconds. The inequality holds unconditionally, so in
particular the claim's carve-out for the saturated 10h cap is not needed. -/
theorem claim7_whatif_monotone (b : Booking) (rest : List Booking) (z : Booking)
    (d t : Int) (o : Options)
    (hz : z.action = Action.act_out)
    (hday : ∀ x ∈ b :: rest, SameDay d x)
    (hzd : SameDay d z)
    (hle : ∀ x ∈ b :: rest, sortKey x ≤ sortKey z) :
    (calculateDailyStatsJS (b :: rest) t o).netSeconds ≤
      (calculateDailyStatsJS ((b :: rest) ++ [z]) t o).netSeconds := by
  have hperm : (sortedBookings (b :: rest)).Perm (b :: rest) :=
    List.perm_insertionSort keyLe _
  have hsane : sortedBookings (b :: rest) ≠ [] := by
    intro hnil
    have hlen := hperm.length_eq
    rw [hnil] at hlen
    simp at hlen
  have hsorted : List.Sorted keyLe (sortedBookings (b :: rest)) :=
    List.sorted_insertionSort keyLe _
  have hday' : ∀ x ∈ sortedBookings (b :: rest), SameDay d x :=
    fun x hx => hday x (hperm.mem_iff.mp hx)
  have hle' : ∀ x ∈ sortedBookings (b :: rest), keyLe x z :=
    fun x hx => hle x (hperm.mem_iff.mp hx)
  have happ : sortedBookings ((b :: rest) ++ [z]) =
      sortedBookings (b :: rest) ++ [z] :=
    sortedBookings_append_max z (b :: rest) hle
  show cappedNetOf (gross_session_seconds (sortedBookings (b :: rest)))
      (manual_pause_seconds (sortedBookings (b :: rest))) o.paola ≤
    cappedNetOf (gross_session_seconds (sortedBookings ((b :: rest) ++ [z])))
      (manual_pause_seconds (sortedBookings ((b :: rest) ++ [z]))) o.paola
  rw [happ,
    manual_pause_append_out (sortedBookings (b :: rest)) z d hsane hz hday' hzd
      hsorted hle']
  refine cappedNetOf_mono _ _ ?_
  have hef : effective_first_stamp_seconds (sortedBookings (b :: rest) ++ [z]) =
      effective_first_stamp_seconds (sortedBookings (b :: rest)) := by
    unfold effective_first_stamp_seconds
    rw [headI_append _ [z] hsane]
  have hlast := getLastD_mem (sortedBookings (b :: rest)) hsane
  have hLz : getSecondsOfDay ((sortedBookings (b :: rest)).getLastD default) ≤
      getSecondsOfDay z :=
    sod_le_of_key_le (hday' _ hlast) hzd (hle' _ hlast)
  unfold gross_session_seconds effective_last_stamp_seconds
  rw [List.getLastD_concat, hef]
  omega

/-- Witness for claim C7 at a concrete input: one IN at 08:00 (day 0) with a
synthetic OUT at 17:00 appended. -/
theorem claim7_whatif_monotone_witness :
    (calculateDailyStatsJS [bIn (8 * 3600)] 28080 oStd).netSeconds ≤
      (calculateDailyStatsJS [bIn (8 * 3600), bOut (17 * 3600)] 28080
        oStd).netSeconds := by
  have hday : ∀ x ∈ [bIn (8 * 3600)], SameDay 0 x := by
    intro x hx
    rw [List.mem_singleton] at hx
    subst hx
    exact ⟨8 * 3600, by norm_num, by norm_num, by norm_num [bIn]⟩
  have hzd : SameDay 0 (bOut (17 * 3600)) :=
    ⟨17 * 3600, by norm_num, by norm_num, by norm_num [bOut]⟩
  have hle : ∀ x ∈ [bIn (8 * 3600)], sortKey x ≤ sortKey (bOut (17 * 3600)) := by
    intro x hx
    rw [List.mem_singleton] at hx
    subst hx
    norm_num [sortKey, bIn, bOut]
  exact claim7_whatif_monotone (bIn (8 * 3600)) [] (bOut (17 * 3600)) 0 28080 oStd
    rfl hday hzd hle

end Worktime
